import Mathlib

/-!
Shallow embedding of the `mysgm` agent/mailbox coordination layer.

Source files embedded:
  * `src/file_adapter.rs` — the conflict-checked key/value store
    (`FileAdapter::get`, `FileAdapter::put_checked`);
  * `src/agent.rs` — `MySgmAgent::advertise`,
    `MySgmAgent::process_next_welcome_message`,
    `MySgmAgent::process_next_key_package`, `MySgmAgent::add_to_group`,
    `MySgmAgent::get_key_package`;
  * `src/main.rs` — the `Update` command's key-package drain loop.

Modelling conventions:
  * Byte strings are `List Nat` (each entry a byte value).
  * Rust `Box<dyn Error>` values are `String`s: the source itself branches on
    stringified errors (`e.to_string() == "Key already exists"`,
    `"NoNewKeyPackages"`, `"NoNewWelcomeMessages"`), so the string is the
    faithful observable.
  * Fallible calls return `Except String α`.
  * The filesystem behind `FileAdapter` is a `FileStore`: a partial map
    `contents` from keys to stored byte values, plus `ioFail`, marking keys
    whose filesystem access fails and with what message.  `ioFail` is fixed
    per store value, matching the spec's deterministic-store contract.
  * The external OpenMLS engine is out of scope (spec §1); each engine call
    an embedded operation makes is supplied as an oracle field of an engine
    record, and the operation is a function of that record.
  * The unbounded producer retry loops are embedded with explicit fuel; a
    `none` result means the fuel ran out before the loop decided.
-/

/-- Byte strings transported by the store. -/
abbrev Bytes : Type := List Nat

/-! ### FileAdapter (src/file_adapter.rs) -/

/-- The directory state behind a `FileAdapter`: `contents key` is the byte
value stored under `key` (`none` if the key was never written); `ioFail key`
is `some msg` when filesystem access for `key` fails with message `msg`. -/
structure FileStore where
  contents : String → Option Bytes
  ioFail : String → Option String

/-- Writing one key into the store's directory. -/
def FileStore.insert (s : FileStore) (key : String) (v : Bytes) : FileStore :=
  { s with contents := fun k => if k = key then some v else s.contents k }

/-- Embeds `FileAdapter::get`: propagate a filesystem failure, otherwise
return the (decoded) stored value, `none` if the key was never written. -/
def FileAdapter.get (s : FileStore) (key : String) : Except String (Option Bytes) :=
  match s.ioFail key with
  | some msg => .error msg
  | none => .ok (s.contents key)

/-- Embeds `FileAdapter::put_checked`: propagate a filesystem failure; fail
with `"Key already exists"` if the key is present; otherwise write the
value. -/
def FileAdapter.put_checked (s : FileStore) (key : String) (v : Bytes) :
    Except String FileStore :=
  match s.ioFail key with
  | some msg => .error msg
  | none =>
    match s.contents key with
    | some _ => .error "Key already exists"
    | none => .ok (s.insert key v)

/-! ### Hex encoding (the `hex` crate's `encode`, used for `"cm_"` keys) -/

/-- Lowercase hex digit for a value below 16. -/
def hexDigit (n : Nat) : Char :=
  if n < 10 then Char.ofNat (48 + n) else Char.ofNat (87 + n)

/-- Two lowercase hex characters for one byte. -/
def hexByte (b : Nat) : String :=
  String.mk [hexDigit (b % 256 / 16), hexDigit (b % 16)]

/-- The `hex::encode` function on a byte string. -/
def hexEncode (bs : Bytes) : String :=
  String.join (bs.map hexByte)

/-! ### Agent state

`MySgmState` lives in `state.rs`, which is not among the provided source
files; only its callers in `agent.rs` are.  Its fields and methods are
modelled from the spec (§3 "Agent State"). -/

/-- Modelled from the spec: the mailbox-bookkeeping part of `MySgmState`
(`state.rs` is missing from the sources).  Per spec §3: `key_package_log` is
an ordered sequence of slots, each `some` validated artifact or `none` (a
poisoned placeholder), whose length is the key-package consumer cursor;
`peer_index` maps a peer id to the index of that peer's most recently
accepted artifact (one live entry per peer id); `welcome_counter` is the next
unread welcome slot; `group_ids` is the list of known group ids.  The type of
a validated key-package artifact is the parameter `KP` (engine-opaque). -/
structure MySgmState (KP : Type) where
  key_package_log : List (Option KP)
  peer_index : String → Option Nat
  welcome_counter : Nat
  group_ids : List String

/-- Modelled from the spec: `MySgmState::log_key_package` appends one slot to
`key_package_log` and returns the index of the appended slot (the log's
previous length), as used by `process_next_key_package`. -/
def MySgmState.log_key_package {KP : Type} (st : MySgmState KP) (slot : Option KP) :
    MySgmState KP × Nat :=
  ({ st with key_package_log := st.key_package_log ++ [slot] },
    st.key_package_log.length)

/-- Modelled from the spec: `MySgmState::set_key_package_log_index` records
`pid ↦ idx` in `peer_index`, overwriting any previous entry for `pid` (spec
§3: one live index per peer id). -/
def MySgmState.set_key_package_log_index {KP : Type} (st : MySgmState KP)
    (pid : String) (idx : Nat) : MySgmState KP :=
  { st with peer_index := fun q => if q = pid then some idx else st.peer_index q }

/-- Modelled from the spec: `MySgmState::get_key_package_log_index` looks up
the live `peer_index` entry for `pid`. -/
def MySgmState.get_key_package_log_index {KP : Type} (st : MySgmState KP)
    (pid : String) : Option Nat :=
  st.peer_index pid

/-- Modelled from the spec: `MySgmState::increment_welcome_counter` advances
the welcome cursor by one. -/
def MySgmState.increment_welcome_counter {KP : Type} (st : MySgmState KP) :
    MySgmState KP :=
  { st with welcome_counter := st.welcome_counter + 1 }

/-- Modelled from the spec: `MySgmState::add_group_id` appends a group id to
the known group ids. -/
def MySgmState.add_group_id {KP : Type} (st : MySgmState KP) (gid : String) :
    MySgmState KP :=
  { st with group_ids := st.group_ids ++ [gid] }

/-! ### MySgmAgent::advertise (src/agent.rs lines 146-166) -/

/-- The store key of key-package mailbox slot `i`. -/
def kpKey (i : Nat) : String := "kp_" ++ toString i

/-- The store key of welcome mailbox slot `i`. -/
def wmKey (i : Nat) : String := "wm_" ++ toString i

/-- The `loop` body of `MySgmAgent::advertise`: try
`put_checked (kpKey i) kp_bytes`; on `Ok` stop, returning the updated store
and `.ok` of the published index; on the error whose string is
`"Key already exists"` retry at `i + 1`; on any other error abort with that
error, the store unmodified.  `fuel` bounds the unbounded source loop; a
`none` result means the fuel ran out undecided. -/
def advertiseLoop (s : FileStore) (kp_bytes : Bytes) :
    Nat → Nat → FileStore × Option (Except String Nat)
  | 0, _ => (s, none)
  | fuel + 1, i =>
    match FileAdapter.put_checked s (kpKey i) kp_bytes with
    | .ok s' => (s', some (.ok i))
    | .error e =>
      if e = "Key already exists" then advertiseLoop s kp_bytes fuel (i + 1)
      else (s, some (.error e))

/-- Embeds `MySgmAgent::advertise`: build and serialize a fresh key package
(an engine call, whose outcome is the oracle argument `kpRes`), then run the
allocation loop starting at the candidate index `key_package_log.len()`.
The result is the agent state after the call (the source never touches the
bookkeeping state here), the store after the call, and the call's result. -/
def MySgmAgent.advertise {KP : Type} (kpRes : Except String Bytes) (fuel : Nat)
    (s : FileStore) (st : MySgmState KP) :
    MySgmState KP × FileStore × Option (Except String Nat) :=
  match kpRes with
  | .error e => (st, s, some (.error e))
  | .ok kp_bytes => (st, advertiseLoop s kp_bytes fuel st.key_package_log.length)

/-! ### MySgmAgent::process_next_welcome_message (src/agent.rs lines 167-189) -/

/-- The engine calls `process_next_welcome_message` makes, as oracles.
`Welcome`, `Staged` and `Group` are the engine-opaque artifact types:
`wmDeserialize` is `Welcome::tls_deserialize_bytes`, `stageWelcome` is
`StagedWelcome::new_from_welcome`, `intoGroup` is `StagedWelcome::into_group`
and `groupIdOf` reads `group.group_id()` as a string. -/
structure WmEngine (Welcome Staged Group : Type) where
  wmDeserialize : Bytes → Except String Welcome
  stageWelcome : Welcome → Except String Staged
  intoGroup : Staged → Except String Group
  groupIdOf : Group → String

/-- Embeds `MySgmAgent::process_next_welcome_message`: read slot `welcome_counter`
of the `"wm_"` mailbox; on an absent slot fail with
`"NoNewWelcomeMessages"`; on a present slot increment the welcome counter
first, then deserialize, stage and join, adding the joined group's id on
success.  Returns the agent state after the call together with the call's
result. -/
def MySgmAgent.process_next_welcome_message {KP Welcome Staged Group : Type}
    (E : WmEngine Welcome Staged Group) (s : FileStore) (st : MySgmState KP) :
    MySgmState KP × Except String Unit :=
  match FileAdapter.get s (wmKey st.welcome_counter) with
  | .error e => (st, .error e)
  | .ok none => (st, .error "NoNewWelcomeMessages")
  | .ok (some wm_bytes) =>
    let st1 := st.increment_welcome_counter
    match E.wmDeserialize wm_bytes with
    | .error e => (st1, .error e)
    | .ok wm_in =>
      match E.stageWelcome wm_in with
      | .error e => (st1, .error e)
      | .ok welcome =>
        match E.intoGroup welcome with
        | .error e => (st1, .error e)
        | .ok group => (st1.add_group_id (E.groupIdOf group), .ok ())

/-! ### MySgmAgent::process_next_key_package (src/agent.rs lines 190-215) -/

/-- The engine calls `process_next_key_package` makes, as oracles.  `KPIn`
and `KP` are the engine-opaque artifact types: `kpDeserialize` is
`KeyPackageIn::tls_deserialize_exact`, `kpValidate` is `KeyPackageIn::validate`
and `credentialIdentity` is the `BasicCredential::try_from` +
`cred.identity()` extraction, yielding the sender's identity string. -/
structure KpEngine (KPIn KP : Type) where
  kpDeserialize : Bytes → Except String KPIn
  kpValidate : KPIn → Except String KP
  credentialIdentity : KP → Except String String

/-- Embeds `MySgmAgent::process_next_key_package`: read slot
`key_package_log.len()` of the `"kp_"` mailbox; on an absent slot fail with
`"NoNewKeyPackages"`; on a present slot deserialize, validate and extract
the sender's credential — each failure appends a `none` placeholder to the
log (the source's `inspect_err` calls) and propagates the error — and on
success append the validated package and point `peer_index[identity]` at
its index. -/
def MySgmAgent.process_next_key_package {KPIn KP : Type}
    (E : KpEngine KPIn KP) (s : FileStore) (st : MySgmState KP) :
    MySgmState KP × Except String Unit :=
  match FileAdapter.get s (kpKey st.key_package_log.length) with
  | .error e => (st, .error e)
  | .ok none => (st, .error "NoNewKeyPackages")
  | .ok (some kp_bytes) =>
    match E.kpDeserialize kp_bytes with
    | .error e => ((st.log_key_package none).1, .error e)
    | .ok kp_in =>
      match E.kpValidate kp_in with
      | .error e => ((st.log_key_package none).1, .error e)
      | .ok kp =>
        match E.credentialIdentity kp with
        | .error e => ((st.log_key_package none).1, .error e)
        | .ok identity =>
          let (st1, log_index) := st.log_key_package (some kp)
          (st1.set_key_package_log_index identity log_index, .ok ())

/-! ### The Update command's key-package drain loop (src/main.rs lines 146-160) -/

/-- The key-package drain loop of the `Update` command: call
`process_next_key_package` repeatedly; break only when the returned error's
string is `"NoNewKeyPackages"`; any other error is logged and the loop
continues; a success continues too.  Result: final state, the list of
per-iteration results before the break (errors being the logged ones), and
whether the loop broke out within `fuel` iterations. -/
def drainKeyPackages {KPIn KP : Type} (E : KpEngine KPIn KP) (s : FileStore) :
    Nat → MySgmState KP → MySgmState KP × List (Except String Unit) × Bool
  | 0, st => (st, [], false)
  | fuel + 1, st =>
    match MySgmAgent.process_next_key_package E s st with
    | (st1, .error e) =>
      if e = "NoNewKeyPackages" then (st1, [], true)
      else
        let (st2, evs, fin) := drainKeyPackages E s fuel st1
        (st2, .error e :: evs, fin)
    | (st1, .ok ()) =>
      let (st2, evs, fin) := drainKeyPackages E s fuel st1
      (st2, .ok () :: evs, fin)

/-! ### MySgmAgent::get_key_package (src/agent.rs lines 343-355) -/

/-- Embeds `MySgmAgent::get_key_package`: look `pid` up in `peer_index` and, when an
index is recorded, fetch that slot of `key_package_log`.  The source calls
`.get(log_index).unwrap()`: an out-of-bounds index panics, embedded as the
`.error` case; an in-bounds slot yields its `Option` content (`as_ref`). -/
def MySgmAgent.get_key_package {KP : Type} (st : MySgmState KP) (pid : String) :
    Except String (Option KP) :=
  match st.get_key_package_log_index pid with
  | none => .ok none
  | some log_index =>
    match st.key_package_log.get? log_index with
    | none => .error "panic: index out of bounds"
    | some slot => .ok slot

/-! ### MySgmAgent::add_to_group (src/agent.rs lines 229-277) -/

deriving instance DecidableEq for Except

/-- One observable action of `add_to_group` against shared or group state:
a `put_checked` attempt on the store (with the key and the call's result),
or the invocation of `merge_pending_commit` on the local group state. -/
inductive AgEvent : Type
  | putAttempt (key : String) (res : Except String Unit)
  | mergeCommit
  deriving DecidableEq

/-- The engine calls `add_to_group` makes, as oracles.  `Group`, `Commit`,
`Welcome` and `KP` are the engine-opaque types: `loadGroup` is
`MlsGroup::load` (its `Ok None` is turned into `"Group not found"` by the
caller), `exportSecret group label context length` is
`MlsGroup::export_secret`, `addMembers` is
`MlsGroup::add_members_without_update`, `serializeCommit` /
`serializeWelcome` are `tls_serialize_detached`, and `mergePendingCommit`
is `MlsGroup::merge_pending_commit`. -/
structure AddEngine (Group Commit Welcome KP : Type) where
  loadGroup : String → Except String (Option Group)
  exportSecret : Group → String → Bytes → Nat → Except String Bytes
  addMembers : Group → List KP → Except String (Commit × Welcome)
  serializeCommit : Commit → Except String Bytes
  serializeWelcome : Welcome → Except String Bytes
  mergePendingCommit : Group → Except String Unit

/-- The `for pid in pids` loop of `add_to_group`: look every peer id up via
`get_key_package`, failing with `"Key package not found"` on a missing
entry (and propagating the out-of-bounds panic of `get_key_package`). -/
def collectKps {KP : Type} (st : MySgmState KP) : List String → Except String (List KP)
  | [] => .ok []
  | pid :: rest =>
    match MySgmAgent.get_key_package st pid with
    | .error e => .error e
    | .ok none => .error "Key package not found"
    | .ok (some kp) => (collectKps st rest).map (fun kps => kp :: kps)

/-- The welcome-publication `loop` at the end of `add_to_group`: serialize
the welcome (anew on every iteration, as the source does inside the loop
body), try `put_checked (wmKey i)`; on `Ok` stop with success; on the
conflict string retry at `i + 1`; on any other error abort with it.
Returns the store, the trace of put attempts, and the loop's result
(`none` when the fuel ran out). -/
def welcomeLoop {Welcome : Type} (ser : Welcome → Except String Bytes)
    (wl : Welcome) (s : FileStore) :
    Nat → Nat → FileStore × List AgEvent × Option (Except String Unit)
  | 0, _ => (s, [], none)
  | fuel + 1, i =>
    match ser wl with
    | .error e => (s, [], some (.error e))
    | .ok wm_bytes =>
      match FileAdapter.put_checked s (wmKey i) wm_bytes with
      | .ok s' => (s', [.putAttempt (wmKey i) (.ok ())], some (.ok ()))
      | .error e =>
        if e = "Key already exists" then
          let (s', evs, r) := welcomeLoop ser wl s fuel (i + 1)
          (s', .putAttempt (wmKey i) (.error e) :: evs, r)
        else (s, [.putAttempt (wmKey i) (.error e)], some (.error e))

/-- Embeds `MySgmAgent::add_to_group`: load the group, export a 32-byte
secret under label `"post_commit"` with empty context, look up the peers'
key packages, build the commit and welcome, publish the commit under
`"cm_" + hex(secret)` (no conflict retry here: any put error propagates),
merge the pending commit, then publish the welcome into the `"wm_"`
mailbox starting at the local `welcome_counter` estimate.  The agent's
bookkeeping state is never mutated by the source here, so the result is
the store after the call, the trace of store/merge events in order, and
the call's result (`none` when the welcome loop's fuel ran out). -/
def MySgmAgent.add_to_group {Group Commit Welcome KP : Type}
    (E : AddEngine Group Commit Welcome KP) (s : FileStore) (st : MySgmState KP)
    (gid : String) (pids : List String) (fuel : Nat) :
    FileStore × List AgEvent × Option (Except String Unit) :=
  match E.loadGroup gid with
  | .error e => (s, [], some (.error e))
  | .ok none => (s, [], some (.error "Group not found"))
  | .ok (some group) =>
    match E.exportSecret group "post_commit" [] 32 with
    | .error e => (s, [], some (.error e))
    | .ok exporter =>
      match collectKps st pids with
      | .error e => (s, [], some (.error e))
      | .ok kps =>
        match E.addMembers group kps with
        | .error e => (s, [], some (.error e))
        | .ok (commit, wl) =>
          match E.serializeCommit commit with
          | .error e => (s, [], some (.error e))
          | .ok cm_bytes =>
            match FileAdapter.put_checked s ("cm_" ++ hexEncode exporter) cm_bytes with
            | .error e =>
              (s, [.putAttempt ("cm_" ++ hexEncode exporter) (.error e)], some (.error e))
            | .ok s1 =>
              match E.mergePendingCommit group with
              | .error e =>
                (s1, [.putAttempt ("cm_" ++ hexEncode exporter) (.ok ()), .mergeCommit],
                  some (.error e))
              | .ok () =>
                let (s2, evs, r) := welcomeLoop E.serializeWelcome wl s1 fuel st.welcome_counter
                (s2, .putAttempt ("cm_" ++ hexEncode exporter) (.ok ()) :: .mergeCommit :: evs, r)

/-! ## Concrete instances used by the witnesses -/

/-- The empty directory: no keys written, no filesystem failures. -/
def emptyStore : FileStore := ⟨fun _ => none, fun _ => none⟩

/-- A fresh agent state (over `Nat`-coded validated key packages): empty
log, no peers, welcome cursor at 0, no groups. -/
def initState : MySgmState Nat := ⟨[], fun _ => none, 0, []⟩

/-- A key-package engine whose every call fails (artifact types coded as
`Unit` and `Nat`). -/
def kpEngineStub : KpEngine Unit Nat :=
  ⟨fun _ => .error "bad key package", fun _ => .error "invalid",
    fun _ => .error "no credential"⟩

/-- A welcome engine whose every call fails (artifact types coded as
`Unit`). -/
def wmEngineStub : WmEngine Unit Unit Unit :=
  ⟨fun _ => .error "bad welcome", fun _ => .error "stage failed",
    fun _ => .error "join failed", fun _ => "g"⟩

/-! ## C7 — the store is write-once -/

/-- C7: for every key `k` and values `v`, `v'` (equal or not), if
`put_checked k v` succeeds then a subsequent `put_checked k v'` fails with
the key-conflict error and the stored value for `k` is (and stays) `v`:
the store never accepts an update for an existing key. -/
theorem put_checked_write_once (s s' : FileStore) (k : String) (v v' : Bytes)
    (h : FileAdapter.put_checked s k v = .ok s') :
    FileAdapter.put_checked s' k v' = .error "Key already exists" ∧
    s'.contents k = some v := by
  unfold FileAdapter.put_checked at h
  cases hfail : s.ioFail k with
  | some msg => rw [hfail] at h; exact absurd h (by simp)
  | none =>
    rw [hfail] at h
    cases hc : s.contents k with
    | some w => rw [hc] at h; exact absurd h (by simp)
    | none =>
      rw [hc] at h
      simp only [Except.ok.injEq] at h
      subst h
      constructor
      · simp [FileAdapter.put_checked, FileStore.insert, hfail]
      · simp [FileStore.insert]

/-- Witness for C7 at a concrete input: writing `[1]` under `"k"` into the
empty store succeeds, and the theorem then yields the conflict on a second
write of `[2]` and the persistence of `[1]`. -/
theorem put_checked_write_once_witness :
    FileAdapter.put_checked (emptyStore.insert "k" [1]) "k" [2]
      = .error "Key already exists" ∧
    (emptyStore.insert "k" [1]).contents "k" = some [1] :=
  put_checked_write_once emptyStore (emptyStore.insert "k" [1]) "k" [1] [2] rfl

/-! ## C6 — an absent slot returns the sentinel and mutates nothing -/

/-- C6: when the next slot of a mailbox is absent from the store,
`process_next_key_package` and `process_next_welcome_message` return the
mailbox-empty sentinels `"NoNewKeyPackages"` / `"NoNewWelcomeMessages"` and
leave the agent state completely unchanged (its `key_package_log`,
`peer_index`, `welcome_counter` and `group_ids` included), so the same slot
is retried on the next poll. -/
theorem mailbox_empty_no_mutation {KPIn KP Welcome Staged Group : Type}
    (EK : KpEngine KPIn KP) (EW : WmEngine Welcome Staged Group)
    (s : FileStore) (st : MySgmState KP)
    (hk : FileAdapter.get s (kpKey st.key_package_log.length) = .ok none)
    (hw : FileAdapter.get s (wmKey st.welcome_counter) = .ok none) :
    MySgmAgent.process_next_key_package EK s st = (st, .error "NoNewKeyPackages") ∧
    MySgmAgent.process_next_welcome_message EW s st
      = (st, .error "NoNewWelcomeMessages") := by
  constructor
  · unfold MySgmAgent.process_next_key_package
    rw [hk]
  · unfold MySgmAgent.process_next_welcome_message
    rw [hw]

/-- Witness for C6 at a concrete input: the empty store has both slot 0
keys absent, and both operations return their sentinel with the fresh
state unchanged. -/
theorem mailbox_empty_no_mutation_witness :
    MySgmAgent.process_next_key_package kpEngineStub emptyStore initState
      = (initState, .error "NoNewKeyPackages") ∧
    MySgmAgent.process_next_welcome_message wmEngineStub emptyStore initState
      = (initState, .error "NoNewWelcomeMessages") :=
  mailbox_empty_no_mutation kpEngineStub wmEngineStub emptyStore initState rfl rfl

/-! ## C10 — advertise never touches the bookkeeping state -/

/-- C10: `advertise` never modifies the agent's mailbox bookkeeping state:
whatever the engine result, the fuel, and the store, the state after the
call has the same `key_package_log` (in particular the agent's own fresh
key package is not appended to it), `peer_index`, `welcome_counter` and
`group_ids` as before. -/
theorem advertise_preserves_bookkeeping {KP : Type} (kpRes : Except String Bytes)
    (fuel : Nat) (s : FileStore) (st : MySgmState KP) :
    (MySgmAgent.advertise kpRes fuel s st).1.key_package_log = st.key_package_log ∧
    (MySgmAgent.advertise kpRes fuel s st).1.peer_index = st.peer_index ∧
    (MySgmAgent.advertise kpRes fuel s st).1.welcome_counter = st.welcome_counter ∧
    (MySgmAgent.advertise kpRes fuel s st).1.group_ids = st.group_ids := by
  cases kpRes <;> exact ⟨rfl, rfl, rfl, rfl⟩

/-! ## C4 — the welcome cursor advances before the payload is parsed -/

/-- C4: whenever the store returns some bytes for slot `welcome_counter`,
`process_next_welcome_message` increments the in-memory welcome cursor by
exactly one — whatever the engine then does — and when the subsequent
deserialization (or staging, or join) fails, the error is returned to the
caller with the cursor already advanced. -/
theorem welcome_cursor_advances_before_parse {KP Welcome Staged Group : Type}
    (E : WmEngine Welcome Staged Group) (s : FileStore) (st : MySgmState KP)
    (b : Bytes)
    (h : FileAdapter.get s (wmKey st.welcome_counter) = .ok (some b)) :
    ((MySgmAgent.process_next_welcome_message E s st).1.welcome_counter
      = st.welcome_counter + 1) ∧
    (∀ e, E.wmDeserialize b = .error e →
      MySgmAgent.process_next_welcome_message E s st
        = (st.increment_welcome_counter, .error e)) := by
  constructor
  · cases hd : E.wmDeserialize b with
    | error e =>
      simp [MySgmAgent.process_next_welcome_message, h, hd,
        MySgmState.increment_welcome_counter]
    | ok wm_in =>
      cases hs : E.stageWelcome wm_in with
      | error e =>
        simp [MySgmAgent.process_next_welcome_message, h, hd, hs,
          MySgmState.increment_welcome_counter]
      | ok wl =>
        cases hg : E.intoGroup wl with
        | error e =>
          simp [MySgmAgent.process_next_welcome_message, h, hd, hs, hg,
            MySgmState.increment_welcome_counter]
        | ok group =>
          simp [MySgmAgent.process_next_welcome_message, h, hd, hs, hg,
            MySgmState.increment_welcome_counter, MySgmState.add_group_id]
  · intro e hd
    simp [MySgmAgent.process_next_welcome_message, h, hd]

/-- Witness for C4 at a concrete input: a store holding bytes `[3]` at
`"wm_0"`, the all-failing welcome engine, and the fresh state; the cursor
moves to 1 and the deserialization error is returned. -/
theorem welcome_cursor_advances_before_parse_witness :
    ((MySgmAgent.process_next_welcome_message wmEngineStub
        (emptyStore.insert "wm_0" [3]) initState).1.welcome_counter = 0 + 1) ∧
    (∀ e, wmEngineStub.wmDeserialize [3] = .error e →
      MySgmAgent.process_next_welcome_message wmEngineStub
          (emptyStore.insert "wm_0" [3]) initState
        = (initState.increment_welcome_counter, .error e)) :=
  welcome_cursor_advances_before_parse wmEngineStub
    (emptyStore.insert "wm_0" [3]) initState [3] rfl

/-! ## C5 — a validation failure appends a poisoned placeholder -/

/-- C5: when `process_next_key_package` observes a present slot whose
artifact fails deserialization, cryptographic validation or credential
extraction, a `none` placeholder is appended to `key_package_log` (so the
cursor — the log's length — advances by exactly one) and the validation
error is still returned to the caller. -/
theorem key_package_validation_failure_poisons_log {KPIn KP : Type}
    (E : KpEngine KPIn KP) (s : FileStore) (st : MySgmState KP) (b : Bytes)
    (h : FileAdapter.get s (kpKey st.key_package_log.length) = .ok (some b)) :
    (∀ e, E.kpDeserialize b = .error e →
      MySgmAgent.process_next_key_package E s st
        = ({ st with key_package_log := st.key_package_log ++ [none] }, .error e)) ∧
    (∀ kp_in e, E.kpDeserialize b = .ok kp_in → E.kpValidate kp_in = .error e →
      MySgmAgent.process_next_key_package E s st
        = ({ st with key_package_log := st.key_package_log ++ [none] }, .error e)) ∧
    (∀ kp_in kp e, E.kpDeserialize b = .ok kp_in → E.kpValidate kp_in = .ok kp →
      E.credentialIdentity kp = .error e →
      MySgmAgent.process_next_key_package E s st
        = ({ st with key_package_log := st.key_package_log ++ [none] }, .error e)) := by
  refine ⟨fun e hd => ?_, fun kp_in e hd hv => ?_, fun kp_in kp e hd hv hc => ?_⟩
  · simp [MySgmAgent.process_next_key_package, h, hd, MySgmState.log_key_package]
  · simp [MySgmAgent.process_next_key_package, h, hd, hv, MySgmState.log_key_package]
  · simp [MySgmAgent.process_next_key_package, h, hd, hv, hc,
      MySgmState.log_key_package]

/-- Witness for C5 at a concrete input: a store holding bytes `[3]` at
`"kp_0"` and the all-failing key-package engine; applying the theorem's
first conjunct, the fresh state gains exactly one `none` slot and the
deserialization error comes back. -/
theorem key_package_validation_failure_poisons_log_witness :
    MySgmAgent.process_next_key_package kpEngineStub
        (emptyStore.insert "kp_0" [3]) initState
      = ({ initState with key_package_log := initState.key_package_log ++ [none] },
          .error "bad key package") :=
  (key_package_validation_failure_poisons_log kpEngineStub
      (emptyStore.insert "kp_0" [3]) initState [3] rfl).1
    "bad key package" rfl

/-! ## C1 — advertise publishes at the first free index -/

/-- Behaviour of the advertise allocation loop started at index `i`, given
that every index from `i` up to (excluding) `j` holds a genuine conflict
(no filesystem failure, key present): with enough fuel the loop either
publishes at `j` when `kpKey j` is accessible and absent, or aborts with
the filesystem error at `j` (the source detects conflicts by comparing the
error string, so the aborting error is one that differs from
`"Key already exists"`). -/
theorem advertiseLoop_first_free (s : FileStore) (kp_bytes : Bytes) :
    ∀ fuel i j, i ≤ j → j - i < fuel →
      (∀ k, i ≤ k → k < j → s.ioFail (kpKey k) = none ∧ s.contents (kpKey k) ≠ none) →
      ((s.ioFail (kpKey j) = none → s.contents (kpKey j) = none →
        advertiseLoop s kp_bytes fuel i = (s.insert (kpKey j) kp_bytes, some (.ok j))) ∧
       (∀ e, s.ioFail (kpKey j) = some e → e ≠ "Key already exists" →
        advertiseLoop s kp_bytes fuel i = (s, some (.error e)))) := by
  intro fuel
  induction fuel with
  | zero => intro i j _ hf _; exact absurd hf (by omega)
  | succ n ih =>
    intro i j hij hf hconf
    by_cases hij' : i = j
    · subst hij'
      constructor
      · intro hfail hc
        have hput : FileAdapter.put_checked s (kpKey i) kp_bytes
            = .ok (s.insert (kpKey i) kp_bytes) := by
          unfold FileAdapter.put_checked
          rw [hfail, hc]
        simp [advertiseLoop, hput]
      · intro e hfail hne
        have hput : FileAdapter.put_checked s (kpKey i) kp_bytes = .error e := by
          unfold FileAdapter.put_checked
          rw [hfail]
        simp [advertiseLoop, hput, hne]
    · have hlt : i < j := Nat.lt_of_le_of_ne hij hij'
      obtain ⟨hfail, hc⟩ := hconf i le_rfl hlt
      obtain ⟨v, hv⟩ := Option.ne_none_iff_exists'.mp hc
      have hput : FileAdapter.put_checked s (kpKey i) kp_bytes
          = .error "Key already exists" := by
        unfold FileAdapter.put_checked
        rw [hfail, hv]
      have hstep : advertiseLoop s kp_bytes (n + 1) i
          = advertiseLoop s kp_bytes n (i + 1) := by
        simp [advertiseLoop, hput]
      rw [hstep]
      exact ih (i + 1) j hlt (by omega) (fun k hk1 hk2 => hconf k (by omega) hk2)

/-- C1: for the candidate index `key_package_log.len()` and any store,
`advertise` publishes exactly one key-package artifact, at the smallest
index `j ≥` the candidate whose key `kp_<j>` is not already present (every
smaller index from the candidate on being a genuine conflict, retried by
incrementing); on success it stops having written only `kpKey j`; on a
store error other than the conflict string it aborts, returning that error
with the store unchanged (nothing written). -/
theorem advertise_publishes_first_free {KP : Type}
    (kp_bytes : Bytes) (fuel : Nat) (s : FileStore) (st : MySgmState KP) (j : Nat)
    (hij : st.key_package_log.length ≤ j)
    (hfuel : j - st.key_package_log.length < fuel)
    (hconf : ∀ k, st.key_package_log.length ≤ k → k < j →
      s.ioFail (kpKey k) = none ∧ s.contents (kpKey k) ≠ none) :
    (s.ioFail (kpKey j) = none → s.contents (kpKey j) = none →
      MySgmAgent.advertise (.ok kp_bytes) fuel s st
        = (st, s.insert (kpKey j) kp_bytes, some (.ok j))) ∧
    (∀ e, s.ioFail (kpKey j) = some e → e ≠ "Key already exists" →
      MySgmAgent.advertise (.ok kp_bytes) fuel s st = (st, s, some (.error e))) := by
  have h := advertiseLoop_first_free s kp_bytes fuel st.key_package_log.length j
    hij hfuel hconf
  constructor
  · intro hfail hc
    simp [MySgmAgent.advertise, h.1 hfail hc]
  · intro e hfail hne
    simp [MySgmAgent.advertise, h.2 e hfail hne]

/-- A store whose key-package mailbox already holds slot 0 (and nothing
else), with no filesystem failures. -/
def oneSlotStore : FileStore :=
  ⟨fun k => if k = "kp_0" then some [0] else none, fun _ => none⟩

/-- Witness for C1 at a concrete input: against a store already holding
`"kp_0"`, a fresh agent's advertise retries the conflict at 0 and
publishes at index 1. -/
theorem advertise_publishes_first_free_witness :
    MySgmAgent.advertise (.ok [7]) 2 oneSlotStore initState
      = (initState, oneSlotStore.insert (kpKey 1) [7], some (.ok 1)) :=
  (advertise_publishes_first_free [7] 2 oneSlotStore initState 1
    (by decide) (by decide)
    (fun k hk1 hk2 => by
      have hk0 : k = 0 := by omega
      subst hk0
      exact ⟨rfl, by decide⟩)).1 rfl (by decide)

/-! ## C2 — no local merge when the commit publish fails -/

/-- C2: in `add_to_group` the local merge of the pending commit happens
strictly after the successful publication of the commit: when the put of
the `"cm_"`-keyed commit fails (with any error — there is no conflict
retry on this key), `add_to_group` returns that error, the store is left
as it was, and `merge_pending_commit` is never invoked, so local group
state is not merged. -/
theorem add_to_group_no_merge_on_commit_publish_failure
    {Group Commit Welcome KP : Type}
    (E : AddEngine Group Commit Welcome KP) (s : FileStore) (st : MySgmState KP)
    (gid : String) (pids : List String) (fuel : Nat)
    (group : Group) (exporter : Bytes) (kps : List KP)
    (commit : Commit) (wl : Welcome) (cm_bytes : Bytes) (e : String)
    (hload : E.loadGroup gid = .ok (some group))
    (hexp : E.exportSecret group "post_commit" [] 32 = .ok exporter)
    (hkps : collectKps st pids = .ok kps)
    (hadd : E.addMembers group kps = .ok (commit, wl))
    (hser : E.serializeCommit commit = .ok cm_bytes)
    (hput : FileAdapter.put_checked s ("cm_" ++ hexEncode exporter) cm_bytes
      = .error e) :
    MySgmAgent.add_to_group E s st gid pids fuel
      = (s, [.putAttempt ("cm_" ++ hexEncode exporter) (.error e)],
          some (.error e)) ∧
    AgEvent.mergeCommit ∉ (MySgmAgent.add_to_group E s st gid pids fuel).2.1 := by
  have hrun : MySgmAgent.add_to_group E s st gid pids fuel
      = (s, [.putAttempt ("cm_" ++ hexEncode exporter) (.error e)],
          some (.error e)) := by
    simp [MySgmAgent.add_to_group, hload, hexp, hkps, hadd, hser, hput]
  refine ⟨hrun, ?_⟩
  rw [hrun]
  simp

/-- An engine for `add_to_group` whose every call succeeds: the group
loads, the exported secret is the byte `171` (hex `"ab"`), the commit and
welcome build, both serialize, and the merge succeeds. -/
def addEngineStub : AddEngine Unit Unit Unit Nat :=
  ⟨fun _ => .ok (some ()), fun _ _ _ _ => .ok [171], fun _ _ => .ok ((), ()),
    fun _ => .ok [1], fun _ => .ok [2], fun _ => .ok ()⟩

/-- An empty store whose filesystem fails with `"disk full"` exactly on the
commit key `"cm_ab"`. -/
def cmFailStore : FileStore :=
  ⟨fun _ => none, fun k => if k = "cm_ab" then some "disk full" else none⟩

/-- Witness for C2 at a concrete input: with the all-succeeding engine and
the store failing on the commit key, `add_to_group` surfaces `"disk full"`
and the merge event never happens. -/
theorem add_to_group_no_merge_on_commit_publish_failure_witness :
    (MySgmAgent.add_to_group addEngineStub cmFailStore initState "g" [] 1
      = (cmFailStore,
          [.putAttempt ("cm_" ++ hexEncode [171]) (.error "disk full")],
          some (.error "disk full"))) ∧
    AgEvent.mergeCommit
      ∉ (MySgmAgent.add_to_group addEngineStub cmFailStore initState "g" [] 1).2.1 :=
  add_to_group_no_merge_on_commit_publish_failure addEngineStub cmFailStore
    initState "g" [] 1 () [171] [] () () [1] "disk full"
    rfl rfl rfl rfl rfl rfl

/-! ## C8 — the commit key is derived from the post_commit secret, and the
commit is published before the merge -/

/-- C8: in `add_to_group` the commit is published under the key
`"cm_" + hex(s)` — `s` being the 32-byte secret exported from the group's
current epoch under the fixed label `"post_commit"` with empty context —
before the commit is merged locally: whenever the merge is invoked at all,
the trace starts with the successful put of exactly that key, and the
merge comes strictly after it. -/
theorem add_to_group_commit_before_merge
    {Group Commit Welcome KP : Type}
    (E : AddEngine Group Commit Welcome KP) (s : FileStore) (st : MySgmState KP)
    (gid : String) (pids : List String) (fuel : Nat)
    (group : Group) (exporter : Bytes)
    (hload : E.loadGroup gid = .ok (some group))
    (hexp : E.exportSecret group "post_commit" [] 32 = .ok exporter)
    (hmerge : AgEvent.mergeCommit
      ∈ (MySgmAgent.add_to_group E s st gid pids fuel).2.1) :
    (MySgmAgent.add_to_group E s st gid pids fuel).2.1.get? 0
      = some (.putAttempt ("cm_" ++ hexEncode exporter) (.ok ())) ∧
    (MySgmAgent.add_to_group E s st gid pids fuel).2.1.get? 1
      = some .mergeCommit := by
  cases hkps : collectKps st pids with
  | error e =>
    have hrun : MySgmAgent.add_to_group E s st gid pids fuel
        = (s, [], some (.error e)) := by
      simp [MySgmAgent.add_to_group, hload, hexp, hkps]
    rw [hrun] at hmerge
    exact absurd hmerge (by simp)
  | ok kps =>
    cases hadd : E.addMembers group kps with
    | error e =>
      have hrun : MySgmAgent.add_to_group E s st gid pids fuel
          = (s, [], some (.error e)) := by
        simp [MySgmAgent.add_to_group, hload, hexp, hkps, hadd]
      rw [hrun] at hmerge
      exact absurd hmerge (by simp)
    | ok cw =>
      obtain ⟨commit, wl⟩ := cw
      cases hser : E.serializeCommit commit with
      | error e =>
        have hrun : MySgmAgent.add_to_group E s st gid pids fuel
            = (s, [], some (.error e)) := by
          simp [MySgmAgent.add_to_group, hload, hexp, hkps, hadd, hser]
        rw [hrun] at hmerge
        exact absurd hmerge (by simp)
      | ok cm_bytes =>
        cases hput : FileAdapter.put_checked s ("cm_" ++ hexEncode exporter) cm_bytes with
        | error e =>
          have hrun : MySgmAgent.add_to_group E s st gid pids fuel
              = (s, [.putAttempt ("cm_" ++ hexEncode exporter) (.error e)],
                  some (.error e)) := by
            simp [MySgmAgent.add_to_group, hload, hexp, hkps, hadd, hser, hput]
          rw [hrun] at hmerge
          simp at hmerge
        | ok s1 =>
          cases hm : E.mergePendingCommit group with
          | error e =>
            have hrun : MySgmAgent.add_to_group E s st gid pids fuel
                = (s1, [.putAttempt ("cm_" ++ hexEncode exporter) (.ok ()),
                    .mergeCommit], some (.error e)) := by
              simp [MySgmAgent.add_to_group, hload, hexp, hkps, hadd, hser, hput, hm]
            rw [hrun]
            exact ⟨rfl, rfl⟩
          | ok u =>
            rcases hw : welcomeLoop E.serializeWelcome wl s1 fuel st.welcome_counter
              with ⟨s2, evs, r⟩
            have hrun : MySgmAgent.add_to_group E s st gid pids fuel
                = (s2, .putAttempt ("cm_" ++ hexEncode exporter) (.ok ())
                    :: .mergeCommit :: evs, r) := by
              simp [MySgmAgent.add_to_group, hload, hexp, hkps, hadd, hser, hput, hm, hw]
            rw [hrun]
            exact ⟨rfl, rfl⟩

/-- Witness for C8 at a concrete input: with the all-succeeding engine on
the empty store the merge does happen, and the theorem places the
successful put of `"cm_" ++ hex [171]` at position 0 and the merge at
position 1 of the trace. -/
theorem add_to_group_commit_before_merge_witness :
    ((MySgmAgent.add_to_group addEngineStub emptyStore initState "g" [] 1).2.1.get? 0
      = some (.putAttempt ("cm_" ++ hexEncode [171]) (.ok ()))) ∧
    ((MySgmAgent.add_to_group addEngineStub emptyStore initState "g" [] 1).2.1.get? 1
      = some .mergeCommit) :=
  add_to_group_commit_before_merge addEngineStub emptyStore initState "g" [] 1
    () [171] rfl rfl (by decide)

/-! ## C9 — peer_index always points at a Some slot -/

/-- Invariant I3: every index recorded in `peer_index` is in bounds of
`key_package_log` and points at a `some` slot. -/
def PeerIndexOk {KP : Type} (st : MySgmState KP) : Prop :=
  ∀ pid i, st.get_key_package_log_index pid = some i →
    ∃ kp, st.key_package_log.get? i = some (some kp)

/-- Appending any slot to the log preserves the invariant: old indices are
unaffected. -/
theorem peerIndexOk_append {KP : Type} (st : MySgmState KP) (slot : Option KP)
    (hinv : PeerIndexOk st) :
    PeerIndexOk { st with key_package_log := st.key_package_log ++ [slot] } := by
  intro pid i h
  obtain ⟨kp, hkp⟩ := hinv pid i h
  have hlen : i < st.key_package_log.length := (List.get?_eq_some.mp hkp).1
  exact ⟨kp, by rw [List.get?_append hlen]; exact hkp⟩

/-- Accepting a validated package preserves the invariant: the new entry
points at the freshly appended `some` slot, old entries at their old
slots. -/
theorem peerIndexOk_accept {KP : Type} (st : MySgmState KP) (kp : KP) (pid : String)
    (hinv : PeerIndexOk st) :
    PeerIndexOk
      (MySgmState.set_key_package_log_index
        { st with key_package_log := st.key_package_log ++ [some kp] }
        pid st.key_package_log.length) := by
  intro q i h
  simp only [MySgmState.get_key_package_log_index,
    MySgmState.set_key_package_log_index] at h
  by_cases hq : q = pid
  · rw [if_pos hq] at h
    obtain rfl : st.key_package_log.length = i := Option.some.inj h
    exact ⟨kp, List.get?_concat_length _ _⟩
  · rw [if_neg hq] at h
    obtain ⟨kp', hkp'⟩ := hinv q i h
    have hlen : i < st.key_package_log.length := (List.get?_eq_some.mp hkp').1
    refine ⟨kp', ?_⟩
    show (st.key_package_log ++ [some kp]).get? i = some (some kp')
    rw [List.get?_append hlen]; exact hkp'

/-- C9: `process_next_key_package` records an index into `peer_index` only
when it has appended a `some` (validated) slot at that index, so the
invariant `PeerIndexOk` is preserved by it in every case; and under the
invariant a lookup through `get_key_package` (as commit construction does)
never indexes out of bounds (the source's `.unwrap()` cannot panic) and
never targets a `none` slot: every recorded peer resolves to `.ok` of its
`some` artifact. -/
theorem peer_index_points_at_some {KPIn KP : Type}
    (E : KpEngine KPIn KP) (s : FileStore) (st : MySgmState KP)
    (hinv : PeerIndexOk st) :
    PeerIndexOk (MySgmAgent.process_next_key_package E s st).1 ∧
    (∀ pid i, st.get_key_package_log_index pid = some i →
      ∃ kp, st.key_package_log.get? i = some (some kp) ∧
        MySgmAgent.get_key_package st pid = .ok (some kp)) := by
  constructor
  · cases hg : FileAdapter.get s (kpKey st.key_package_log.length) with
    | error e =>
      have hst : (MySgmAgent.process_next_key_package E s st).1 = st := by
        simp [MySgmAgent.process_next_key_package, hg]
      rw [hst]; exact hinv
    | ok ob =>
      cases ob with
      | none =>
        have hst : (MySgmAgent.process_next_key_package E s st).1 = st := by
          simp [MySgmAgent.process_next_key_package, hg]
        rw [hst]; exact hinv
      | some b =>
        cases hd : E.kpDeserialize b with
        | error e =>
          have hst : (MySgmAgent.process_next_key_package E s st).1
              = { st with key_package_log := st.key_package_log ++ [none] } := by
            simp [MySgmAgent.process_next_key_package, hg, hd,
              MySgmState.log_key_package]
          rw [hst]; exact peerIndexOk_append st none hinv
        | ok kp_in =>
          cases hv : E.kpValidate kp_in with
          | error e =>
            have hst : (MySgmAgent.process_next_key_package E s st).1
                = { st with key_package_log := st.key_package_log ++ [none] } := by
              simp [MySgmAgent.process_next_key_package, hg, hd, hv,
                MySgmState.log_key_package]
            rw [hst]; exact peerIndexOk_append st none hinv
          | ok kp =>
            cases hc : E.credentialIdentity kp with
            | error e =>
              have hst : (MySgmAgent.process_next_key_package E s st).1
                  = { st with key_package_log := st.key_package_log ++ [none] } := by
                simp [MySgmAgent.process_next_key_package, hg, hd, hv, hc,
                  MySgmState.log_key_package]
              rw [hst]; exact peerIndexOk_append st none hinv
            | ok identity =>
              have hst : (MySgmAgent.process_next_key_package E s st).1
                  = MySgmState.set_key_package_log_index
                      { st with key_package_log := st.key_package_log ++ [some kp] }
                      identity st.key_package_log.length := by
                simp [MySgmAgent.process_next_key_package, hg, hd, hv, hc,
                  MySgmState.log_key_package]
              rw [hst]; exact peerIndexOk_accept st kp identity hinv
  · intro pid i h
    obtain ⟨kp, hkp⟩ := hinv pid i h
    refine ⟨kp, hkp, ?_⟩
    have hkp' : st.key_package_log[i]? = some (some kp) := by
      rw [← List.get?_eq_getElem?]; exact hkp
    simp [MySgmAgent.get_key_package, h, hkp']

/-- A state whose log holds one validated artifact (coded `5`) at slot 0,
with peer `"alice"` indexed at it. -/
def peerState : MySgmState Nat :=
  ⟨[some 5], fun p => if p = "alice" then some 0 else none, 0, []⟩

/-- Witness for C9 at a concrete input: `peerState` satisfies the
invariant, and the theorem resolves `"alice"` to slot 0's artifact without
a panic. -/
theorem peer_index_points_at_some_witness :
    ∃ kp, peerState.key_package_log.get? 0 = some (some kp) ∧
      MySgmAgent.get_key_package peerState "alice" = .ok (some kp) :=
  (peer_index_points_at_some kpEngineStub emptyStore peerState
    (fun pid i h => by
      simp only [MySgmState.get_key_package_log_index, peerState] at h
      by_cases hp : pid = "alice"
      · rw [if_pos hp] at h
        obtain rfl : (0 : Nat) = i := Option.some.inj h
        exact ⟨5, rfl⟩
      · rw [if_neg hp] at h
        cases h)).2 "alice" 0 (by decide)

/-! ## C3 — the drain loop does NOT abort on a store error -/

/-- An empty store whose filesystem fails with `"disk error"` exactly on
the key `"kp_0"`. -/
def kpFailStore : FileStore :=
  ⟨fun _ => none, fun k => if k = "kp_0" then some "disk error" else none⟩

/-- C3 exhibit (the code diverges from the claim): the `Update` command's
key-package drain loop breaks only on the `"NoNewKeyPackages"` sentinel
string; any other error — a store error included — is logged and the loop
continues, and since a store error leaves the cursor unchanged, the very
same slot is retried.  Against a store whose `"kp_0"` access fails with
`"disk error"`, the drain never terminates for any fuel (first conjunct),
and two iterations log the same store error twice with no state change
(second conjunct) — the store error does not abort the drain. -/
theorem drain_retries_store_error_forever :
    (∀ fuel, (drainKeyPackages kpEngineStub kpFailStore fuel initState).2.2 = false) ∧
    drainKeyPackages kpEngineStub kpFailStore 2 initState
      = (initState, [.error "disk error", .error "disk error"], false) := by
  have hstep : MySgmAgent.process_next_key_package kpEngineStub kpFailStore initState
      = (initState, .error "disk error") := rfl
  constructor
  · intro fuel
    induction fuel with
    | zero => rfl
    | succ n ih => simp [drainKeyPackages, hstep, ih]
  · rfl
